import Mathlib

/-!
Shallow embedding of the editing core of `gim` (a modal terminal text editor
written in Go): the line buffer, cursor, viewport window, frame renderer and
command dispatch from `internal/editor/editor.go` and
`internal/editor/renderer.go`, and the theme group resolver from
`internal/theme/theme.go`.

Conventions of the embedding:
* Go strings holding buffer lines and command text are modeled as `List Char`
  (the lines hold no newline; the editor treats them as plain character
  sequences).  Status messages are opaque `String`s.
* Go `int` fields (cursor coordinates, window rows, screen dimensions) are
  modeled as `Int`: they can go negative in the source.  Division on lengths
  by a screen width only ever happens with a non-negative numerator, where
  Go's truncated division and Lean's `Int` division agree.
* A Go runtime panic (index out of range, slice bounds out of range) is
  modeled by returning `none`; all fallible functions return `Option`.
* The screen dimensions live in `screen.ScreenDim` in the source; they are
  carried as fields `screenW`/`screenH` of the editor state here.
-/

namespace Gim

/-- Modes of the editor (`mode` constants in editor.go). -/
inductive Mode where
  | normal
  | insert
  | commandLine
deriving DecidableEq, Repr

/-- Direction of the last vertical cursor move (`cursorMovement` in editor.go). -/
inductive CursorMovement where
  | up
  | down
deriving DecidableEq, Repr

/-- The editor state: the fields of `type Editor` in editor.go that the
claims touch, with the screen dimensions (`screen.ScreenDim.X/.Y`) inlined.
`dataBuffer` is the line buffer, `cursorX`/`cursorY` are `cursorPos.X/.Y`,
`firstLineInFrame`/`lastLineInFrame` are the viewport window. -/
structure EditorState where
  dataBuffer : List (List Char)
  cursorX : Int
  cursorY : Int
  currentMode : Mode
  statusMessage : String
  currentCommand : List Char
  isDirty : Bool
  firstLineInFrame : Int
  lastLineInFrame : Int
  screenW : Int
  screenH : Int
  lastUpDownCursorMovement : CursorMovement
deriving DecidableEq, Repr

/-- `e.dataBuffer[i]` with Go semantics: `none` models the index-out-of-range
panic for `i < 0` or `i >= len(buf)`. -/
def lineAt (buf : List (List Char)) (i : Int) : Option (List Char) :=
  if 0 ≤ i ∧ i.toNat < buf.length then some (buf.getD i.toNat []) else none

/-- `func (e *Editor) quit(force bool)` from editor.go.  Returns the updated
state and whether the process exits (`os.Exit(0)`); `screen.Close` is an
external side effect and is not modeled. -/
def quit (e : EditorState) (force : Bool) : EditorState × Bool :=
  if e.isDirty && !force then
    ({ e with statusMessage := "E37: No write since last change (add ! to override)" }, false)
  else
    (e, true)

/-- Digit-run accumulator used by `goAtoi`: consumes the remaining characters,
failing on the first non-digit (this is how `strconv.Atoi` rejects a string
with any non-digit after the optional sign). -/
def parseDigitsAux (acc : Nat) : List Char → Option Nat
  | [] => some acc
  | c :: cs => if c.isDigit then parseDigitsAux (acc * 10 + (c.toNat - 48)) cs else none

/-- `strconv.Atoi` as used by `runCommand`: an optional sign followed by at
least one digit, value range ignored (no command in the claims overflows). -/
def goAtoi (s : List Char) : Option Int :=
  match s with
  | [] => none
  | '-' :: rest =>
    match rest with
    | [] => none
    | _ => (parseDigitsAux 0 rest).map (fun n => -(n : Int))
  | '+' :: rest =>
    match rest with
    | [] => none
    | _ => (parseDigitsAux 0 rest).map (fun n => (n : Int))
  | _ => (parseDigitsAux 0 s).map (fun n => (n : Int))

/-- The statements `runCommand` executes after its `switch` when it does not
exit the process: clear the command string and return to Normal mode
(`e.currentCommand = ""`, `e.currentMode = MODE_NORMAL`; the status-bar
repaint is an external side effect). -/
def finishCommand (e : EditorState) : EditorState :=
  { e with currentCommand := [], currentMode := Mode.normal }

/-- The inner loop of `fixVerticalCursorOverflow` (editor.go lines 194-196):
`for i := e.lastLineInFrame; i >= e.firstLineInFrame; i-- {
   e.firstLineInFrame += len(e.dataBuffer[i]) / e.screen.ScreenDim.X }`.
The loop condition re-reads `firstLineInFrame` as it grows.  The source loop
diverges when the screen width is non-positive (it never is: widths come from
the terminal); the `0 < width` test makes the model total and returns `none`
on that unreachable branch, as it does on the out-of-range index panic. -/
def fixVertInner (buf : List (List Char)) (width : Int) (i first : Int) :
    Option Int :=
  if _h : first ≤ i then
    if hw : 0 < width then
      match lineAt buf i with
      | none => none
      | some line => fixVertInner buf width (i - 1) (first + (line.length : Int) / width)
    else none
  else some first
termination_by (i + 1 - first).toNat
decreasing_by
  have hnn : 0 ≤ (line.length : Int) / width := Int.ediv_nonneg (by exact_mod_cast Nat.zero_le _) (le_of_lt hw)
  omega

/-- The outer loop of `fixVerticalCursorOverflow` (editor.go lines 185-198),
parameterized over the state fields it reads and returning the updated
`(firstLineInFrame, lastLineInFrame)` pair. -/
def fixVertLoop (buf : List (List Char)) (width height : Int) (cursorY : Int)
    (first last : Int) : Option (Int × Int) :=
  if cursorY > last then
    if last + 1 ≥ (buf.length : Int) then some (first, last)
    else
      let last' := last + 1
      let first' := if last' - first > height - 2 then first + 1 else first
      match fixVertInner buf width last' first' with
      | none => none
      | some first'' => fixVertLoop buf width height cursorY first'' last'
  else some (first, last)
termination_by (cursorY - last).toNat
decreasing_by omega

/-- `func (e *Editor) fixVerticalCursorOverflow()` from editor.go. -/
def fixVerticalCursorOverflow (e : EditorState) : Option EditorState :=
  match fixVertLoop e.dataBuffer e.screenW e.screenH e.cursorY e.firstLineInFrame e.lastLineInFrame with
  | none => none
  | some (f, l) => some { e with firstLineInFrame := f, lastLineInFrame := l }

/-- `func (e *Editor) fixHorizontalCursorOverflow()` from editor.go (lines
200-211): clamp the cursor column to the current line length (one less
outside Insert mode, floored at 0).  `none` models the index panic of
`getCurrentLineLength` when the cursor row is outside the buffer. -/
def fixHorizontalCursorOverflow (e : EditorState) : Option EditorState :=
  match lineAt e.dataBuffer e.cursorY with
  | none => none
  | some line =>
    let r0 : Int := (line.length : Int)
    let r1 : Int :=
      if e.currentMode ≠ Mode.insert then (if r0 - 1 < 0 then 0 else r0 - 1) else r0
    some (if r1 < e.cursorX then { e with cursorX := r1 } else e)

/-- The `tcell.KeyDown` branch of `handleTextAreaCursorMovement` (editor.go
lines 158-165): advance the cursor row unless on the last line, record the
vertical intent, then run the horizontal and vertical overflow corrections.
The trailing `syncCursor` repaint is modeled separately by
`syncTextFrameState`/`cursorScreenY`. -/
def keyDown (e : EditorState) : Option EditorState :=
  if e.cursorY + 1 ≠ (e.dataBuffer.length : Int) then
    let e := { e with cursorY := e.cursorY + 1,
                      lastUpDownCursorMovement := CursorMovement.down }
    match fixHorizontalCursorOverflow e with
    | none => none
    | some e => fixVerticalCursorOverflow e
  else some e

/-- A text frame under construction: `[][]rune` in the source, where a row is
`nil` until first written (`none` here) and otherwise has `width` cells. -/
abbrev Frame := List (Option (List Char))

/-- Go's zero `rune`, the content of cells `make([]rune, width)` allocates. -/
def charZero : Char := Char.ofNat 0

/-- The per-line character loop of `fillTextFrameFromTop` (renderer.go lines
54-65): writes the characters of one line into the frame starting at cell
`(x, y)`, allocating `nil` rows on first touch and wrapping `x` at `width`.
The source indexes `textFrameTemp[y]` and then `textFrameTemp[y][x]` without
bounds checks; `none` models those index-out-of-range panics. -/
def fillChars (width : Nat) : Frame → Nat → Nat → List Char → Option (Frame × Nat × Nat)
  | frame, x, y, [] => some (frame, x, y)
  | frame, x, y, c :: cs =>
    if y < frame.length then
      if x < width then
        if x + 1 = width then
          fillChars width
            (frame.set y (some (((frame.getD y none).getD (List.replicate width charZero)).set x c)))
            0 (y + 1) cs
        else
          fillChars width
            (frame.set y (some (((frame.getD y none).getD (List.replicate width charZero)).set x c)))
            (x + 1) y cs
      else none
    else none

/-- The line loop of `fillTextFrameFromTop` (renderer.go lines 51-72): lay
line `i` into the frame from physical row `y`, then either stop (buffer
exhausted or `y == ScreenDim.Y-2`) recording `i` as the new
`lastLineInFrame`, or continue with line `i+1` at row `y+1`. -/
def fillLines (buf : List (List Char)) (width : Nat) (heightI : Int)
    (frame : Frame) (y : Nat) (i : Int) : Option (Frame × Int) :=
  -- `line := e.dataBuffer[i]`: out-of-range `i` is the Go index panic
  if hin : 0 ≤ i ∧ i.toNat < buf.length then
    match fillChars width frame 0 y (buf.getD i.toNat []) with
    | none => none
    | some (frame', _, y') =>
      if i + 1 = (buf.length : Int) ∨ (y' : Int) = heightI - 2 then some (frame', i)
      else fillLines buf width heightI frame' (y' + 1) (i + 1)
  else none
termination_by ((buf.length : Int) - i).toNat
decreasing_by omega

/-- `func (e *Editor) fillTextFrameFromTop() [][]rune` from renderer.go:
allocates `make([][]rune, ScreenDim.Y-1)` and fills it from
`firstLineInFrame`, returning the frame together with the updated
`lastLineInFrame`. -/
def fillTextFrameFromTop (e : EditorState) : Option (Frame × Int) :=
  fillLines e.dataBuffer e.screenW.toNat e.screenH
    (List.replicate (e.screenH - 1).toNat none) 0 e.firstLineInFrame

/-- The body of `fillEmptyLinesIfAnyWithTilde` (renderer.go lines 29-44),
walking the frame index `i` downward while `i > 0`: a still-`nil` row is
given `width` blank cells, with a leading `'~'` while no non-`nil` row has
been seen below it. -/
def fillEmptyAux (width : Nat) (frame : Frame) (shouldTilde : Bool) : Nat → Frame
  | 0 => frame
  | j + 1 =>
    match frame.getD (j + 1) none with
    | some _ => fillEmptyAux width frame false j
    | none =>
      let row := List.replicate width charZero
      let row := if shouldTilde then row.set 0 '~' else row
      fillEmptyAux width (frame.set (j + 1) (some row)) shouldTilde j

/-- `func (e *Editor) fillEmptyLinesIfAnyWithTilde(textFrameTemp [][]rune)`
from renderer.go. -/
def fillEmptyLinesIfAnyWithTilde (width : Nat) (frame : Frame) : Frame :=
  fillEmptyAux width frame true (frame.length - 1)

/-- The state effect of `syncTextFrame` (renderer.go lines 7-27): build the
frame (updating `lastLineInFrame`) and tilde-fill it; the painting itself is
an external side effect.  `none` models the panics of the frame fill. -/
def syncTextFrameState (e : EditorState) : Option (EditorState × Frame) :=
  match fillTextFrameFromTop e with
  | none => none
  | some (frame, lastLine) =>
    some ({ e with lastLineInFrame := lastLine },
      fillEmptyLinesIfAnyWithTilde e.screenW.toNat frame)

/-- The screen-row loop of `syncCursor` (renderer.go lines 80-82):
`for i := e.firstLineInFrame; i < e.cursorPos.Y; i++ {
   cursorPosScreen.Y += len(e.dataBuffer[i]) / e.screen.ScreenDim.X }`,
with `acc` starting at `cursorPos.Y - firstLineInFrame`. -/
def cursorScreenYLoop (buf : List (List Char)) (width : Int) (cursorY : Int)
    (i acc : Int) : Option Int :=
  if i < cursorY then
    match lineAt buf i with
    | none => none
    | some line => cursorScreenYLoop buf width cursorY (i + 1) (acc + (line.length : Int) / width)
  else some acc
termination_by (cursorY - i).toNat
decreasing_by omega

/-- The screen row `syncCursor` computes for the cursor before the horizontal
wrap adjustment (renderer.go lines 78-82). -/
def cursorScreenY (e : EditorState) : Option Int :=
  cursorScreenYLoop e.dataBuffer e.screenW e.cursorY e.firstLineInFrame
    (e.cursorY - e.firstLineInFrame)

/-- `func (e *Editor) runCommand(cmdFull string)` from editor.go (lines
222-254).  `cmdFull` is the accumulated command text (normally starting with
`':'`); `saveResult` is the outcome of the external
`fs.WriteLinesToFile` call on the write-and-quit path — the source discards
that call's error, so the parameter is deliberately unused there.  Returns
`none` for the panic of `cmdFull[1:]` on an empty string, otherwise the
updated state and whether the process exits via `os.Exit(0)`. -/
def runCommand (e : EditorState) (cmdFull : List Char) (saveResult : Bool) :
    Option (EditorState × Bool) :=
  match cmdFull with
  | [] => none
  | _ :: cmd =>
    match goAtoi cmd with
    | some n =>
      let lineNum := if n > (e.dataBuffer.length : Int) then (e.dataBuffer.length : Int) else n
      let lineNum := if lineNum < 1 then 1 else lineNum
      let e := { e with cursorY := lineNum - 1 }
      match fixVerticalCursorOverflow e with
      | none => none
      | some e =>
        match syncTextFrameState e with
        | none => none
        | some (e, _) => some (finishCommand e, false)
    | none =>
      match cmd with
      | ['q'] =>
        let (e', exits) := quit e false
        if exits then some (e', true) else some (finishCommand e', false)
      | ['q', '!'] =>
        let (e', exits) := quit e true
        if exits then some (e', true) else some (finishCommand e', false)
      | ['w', 'q'] =>
        -- the source runs `fs.WriteLinesToFile` when dirty and ignores its
        -- error, then closes the screen and exits unconditionally
        let _ := if e.isDirty then some saveResult else none
        some (e, true)
      | ['x'] =>
        let _ := if e.isDirty then some saveResult else none
        some (e, true)
      | _ => some (finishCommand e, false)

/-- The keys `handleKeyInsertMode` distinguishes: `tcell.KeyEnter`,
`tcell.KeyBackspace`/`KeyBackspace2`, or a printable rune (the `default`
branch).  Arrow keys never reach this function (they are consumed by
`handleTextAreaCursorMovement` first). -/
inductive InsertKey where
  | enter
  | backspace
  | chr (c : Char)
deriving DecidableEq, Repr

/-- The downward shift loop of the Enter branch (editor.go lines 312-314):
`for i := len(newBuffer) - 1; i > e.cursorPos.Y; i-- {
   newBuffer[i] = newBuffer[i-1] }`.
`List.set`/`List.getD` on the current buffer match the in-place array writes
because the loop runs downward, reading each `i-1` before writing it. -/
def shiftDownAux (y : Nat) (nb : List (List Char)) : Nat → List (List Char)
  | 0 => nb
  | i + 1 =>
    if i + 1 > y then shiftDownAux y (nb.set (i + 1) (nb.getD i [])) i else nb

/-- The merge loop of the Backspace-at-column-0 branch (editor.go lines
338-349): rebuild the buffer skipping row `y` and appending row `y`'s content
(`curLine`) to row `y-1`; `i` is the running index of the Go `range` loop and
the consecutive `newBuffer[j] = line; j++` writes are the list being built. -/
def mergeLoop (y : Nat) (curLine : List Char) : Nat → List (List Char) → List (List Char)
  | _, [] => []
  | i, line :: rest =>
    if i = y then mergeLoop y curLine (i + 1) rest
    else if i = y - 1 then (line ++ curLine) :: mergeLoop y curLine (i + 1) rest
    else line :: mergeLoop y curLine (i + 1) rest

/-- `func (e *Editor) handleKeyInsertMode(event actions.Event)` from editor.go
(lines 305-364): the buffer/cursor/dirty-flag effect of a key in Insert mode.
The source ends each mutating branch with `e.syncTextFrame(false)` (and the
Enter branch additionally with `e.fixVerticalCursorOverflow()`); those calls
only update `firstLineInFrame`/`lastLineInFrame` and repaint, never the
buffer or the cursor, and are modeled separately by
`fixVerticalCursorOverflow`/`syncTextFrameState`.  `none` models the panics
of the source's unchecked indexing/slicing on a cursor outside the buffer. -/
def handleKeyInsertMode (e : EditorState) (k : InsertKey) : Option EditorState :=
  let e := { e with isDirty := true }
  match k with
  | InsertKey.enter =>
    -- newBuffer := make([]string, count+1); copy(newBuffer, dataBuffer)
    let nb := e.dataBuffer ++ [[]]
    let nb :=
      if e.cursorY < (e.dataBuffer.length : Int) - 1 then
        shiftDownAux e.cursorY.toNat nb (nb.length - 1)
      else nb
    match lineAt e.dataBuffer e.cursorY with
    | none => none
    | some line =>
      if e.cursorX < (line.length : Int) then
        if e.cursorX < (0 : Int) then none -- Go slice bounds panic on a negative index
        else
          let x := e.cursorX.toNat
          let nb := (nb.set e.cursorY.toNat (line.take x)).set (e.cursorY.toNat + 1) (line.drop x)
          some { e with dataBuffer := nb, cursorY := e.cursorY + 1, cursorX := 0,
                        lastUpDownCursorMovement := CursorMovement.down }
      else
        some { e with dataBuffer := nb, cursorY := e.cursorY + 1, cursorX := 0,
                      lastUpDownCursorMovement := CursorMovement.down }
  | InsertKey.backspace =>
    if e.cursorX = 0 ∧ e.cursorY = 0 then some e
    else if e.cursorX > 0 then
      match lineAt e.dataBuffer e.cursorY with
      | none => none
      | some line =>
        if e.cursorX ≤ (line.length : Int) then
          let x := e.cursorX.toNat
          some { e with dataBuffer := e.dataBuffer.set e.cursorY.toNat (line.take (x - 1) ++ line.drop x),
                        cursorX := e.cursorX - 1 }
        else none -- Go slice bounds panic: line[:x-1] with x-1 > len(line)
    else
      match lineAt e.dataBuffer e.cursorY, lineAt e.dataBuffer (e.cursorY - 1) with
      | some cur, some prev =>
        some { e with dataBuffer := mergeLoop e.cursorY.toNat cur 0 e.dataBuffer,
                      cursorX := (prev.length : Int), cursorY := e.cursorY - 1 }
      | _, _ => none
  | InsertKey.chr c =>
    if c = charZero then some e -- `if event.Rune == 0 { return }`
    else
      match lineAt e.dataBuffer e.cursorY with
      | none => none
      | some line =>
        if 0 ≤ e.cursorX ∧ e.cursorX ≤ (line.length : Int) then
          let x := e.cursorX.toNat
          some { e with dataBuffer := e.dataBuffer.set e.cursorY.toNat (line.take x ++ c :: line.drop x),
                        cursorX := e.cursorX + 1 }
        else none -- Go slice bounds panic on line[:x] / line[x:]

/-!
Theme group resolution, from `internal/theme/theme.go`.
-/

/-- `type ColorKind int` with its three constants. -/
inductive ColorKind where
  | none
  | rgb
  | index
deriving DecidableEq, Repr

/-- `type Color struct` from theme.go (`Index` is a Go `int`). -/
structure Color where
  kind : ColorKind
  red : Nat
  green : Nat
  blue : Nat
  index : Int
deriving DecidableEq, Repr

/-- `type TextStyle struct` from theme.go. -/
structure TextStyle where
  bold : Bool
  italic : Bool
  underline : Bool
  reverse : Bool
deriving DecidableEq, Repr

/-- `type TextHighlight struct` from theme.go. -/
structure TextHighlight where
  foreground : Color
  background : Color
  txtStyle : TextStyle
deriving DecidableEq, Repr

/-- `type Theme struct` from theme.go, keeping the two maps the resolver
reads.  Go maps with unique keys are modeled as association lists queried by
first match. -/
structure Theme where
  groups : List (String × TextHighlight)
  links : List (String × String)
deriving DecidableEq, Repr

/-- Helper for the termination of `resolveGroupAux`: filtering with a
pointwise-stronger predicate keeps at most as many elements. -/
theorem length_filter_mono {α : Type} (p q : α → Bool)
    (h : ∀ x, q x = true → p x = true) (l : List α) :
    (l.filter q).length ≤ (l.filter p).length := by
  induction l with
  | nil => simp
  | cons a t ih =>
    by_cases hq : q a = true
    · simp [List.filter, hq, h a hq]
      omega
    · simp only [List.filter, Bool.not_eq_true] at hq ⊢
      rw [hq]
      by_cases hp : p a = true
      · rw [hp]
        simpa using Nat.le_succ_of_le ih
      · simp only [Bool.not_eq_true] at hp
        rw [hp]
        exact ih

/-- Helper for the termination of `resolveGroupAux`: visiting a link key that
was not visited yet strictly shrinks the set of unvisited link entries. -/
theorem filter_visited_lt (l : List (String × String)) (cur : String)
    (visited : List String) (hk : (List.lookup cur l).isSome = true)
    (hnv : visited.contains cur = false) :
    (l.filter (fun p => !((cur :: visited).contains p.1))).length <
      (l.filter (fun p => !(visited.contains p.1))).length := by
  induction l with
  | nil => simp [List.lookup] at hk
  | cons a t ih =>
    have hmono : ∀ x : String × String,
        (!((cur :: visited).contains x.1)) = true → (!(visited.contains x.1)) = true := by
      intro x hx
      simp only [List.contains_cons, Bool.not_eq_true', Bool.or_eq_false_iff] at hx
      simp only [Bool.not_eq_true']
      exact hx.2
    by_cases hc : cur = a.1
    · have h1 : ((cur :: visited).contains a.1) = true := by
        simp [List.contains_cons, hc]
      have h2 : (visited.contains a.1) = false := by rw [← hc]; exact hnv
      simp only [List.filter, h1, h2, Bool.not_true, Bool.not_false]
      have := length_filter_mono (fun p : String × String => !(visited.contains p.1))
        (fun p : String × String => !((cur :: visited).contains p.1)) hmono t
      simp only [List.length_cons]
      omega
    · have hk' : (List.lookup cur t).isSome = true := by
        rw [List.lookup] at hk
        have : (cur == a.1) = false := by simp [hc]
        rwa [this] at hk
      have hsame : ((cur :: visited).contains a.1) = (visited.contains a.1) := by
        simp [List.contains_cons, Ne.symm hc]
      by_cases hv : (visited.contains a.1) = true
      · simp only [List.filter, hsame, hv, Bool.not_true]
        exact ih hk'
      · simp only [Bool.not_eq_true] at hv
        simp only [List.filter, hsame, hv, Bool.not_false]
        simpa using Nat.succ_lt_succ (ih hk')

/-- The resolution loop of `func (t *Theme) ResolveGroup(name string)`
(theme.go lines 103-117): stop with `none` when `cur` was already visited
(cycle) or is neither a group nor a link; return the highlight of the first
directly defined group on the alias chain.  The `visited` map is the list of
names marked so far. -/
def resolveGroupAux (t : Theme) (visited : List String) (cur : String) :
    Option TextHighlight :=
  if hv : visited.contains cur then none
  else
    match t.groups.lookup cur with
    | some hl => some hl
    | none =>
      -- `next, ok := t.Links[cur]; if !ok { return unresolved }; cur = next`
      if hn : (t.links.lookup cur).isSome then
        resolveGroupAux t (cur :: visited) ((t.links.lookup cur).get hn)
      else none
termination_by (t.links.filter (fun p => !(visited.contains p.1))).length
decreasing_by
  exact filter_visited_lt t.links cur visited hn (by simpa using hv)

/-- `func (t *Theme) ResolveGroup(name string) (TextHighlight, bool)` from
theme.go.  The Go receiver-nil check does not arise for a value-typed model;
`none` is the `(TextHighlight{}, false)` "unresolved" result. -/
def ResolveGroup (t : Theme) (name : String) : Option TextHighlight :=
  resolveGroupAux t [] name

end Gim

namespace Gim

/-!
Concrete states used to instantiate the theorems below.
-/

/-- A small concrete session: buffer `["abc", "def"]`, cursor at the origin,
Insert mode, dirty, on an 80×24 screen with both lines visible. -/
def sampleState : EditorState :=
  { dataBuffer := [['a', 'b', 'c'], ['d', 'e', 'f']], cursorX := 0, cursorY := 0,
    currentMode := Mode.insert, statusMessage := "", currentCommand := [],
    isDirty := true, firstLineInFrame := 0, lastLineInFrame := 1,
    screenW := 80, screenH := 24, lastUpDownCursorMovement := CursorMovement.up }

end Gim

namespace Gim

/-- Claim C6: quitting without force while the dirty flag is set is rejected —
the state is unchanged except for the fixed unsaved-changes status message
(`E37: No write since last change (add ! to override)`), in particular the
buffer is untouched, and the process does not exit; the forced quit exits
regardless of the dirty flag. -/
theorem claim6_quit_guard :
    (∀ e : EditorState, e.isDirty = true →
      quit e false =
        ({ e with statusMessage := "E37: No write since last change (add ! to override)" },
          false)) ∧
    (∀ e : EditorState, (quit e true).2 = true) := by
  constructor
  · intro e h
    simp [quit, h]
  · intro e
    simp [quit]

/-- Witness for C6 at `sampleState` (which is dirty): the unforced quit is
rejected with the E37 message and the forced quit exits. -/
theorem claim6_quit_guard_witness :
    sampleState.isDirty = true ∧
    quit sampleState false =
      ({ sampleState with
          statusMessage := "E37: No write since last change (add ! to override)" }, false) ∧
    (quit sampleState true).2 = true :=
  ⟨rfl, claim6_quit_guard.1 sampleState rfl, claim6_quit_guard.2 sampleState⟩

/-- Claim C7 (the code violates it): on `:wq` with a dirty buffer the source
calls `fs.WriteLinesToFile` and discards its error, then exits
unconditionally — `runCommand` returns `exits = true` with the state
untouched (no failure surfaced) even when the save result is a failure
(`saveResult = false`). -/
theorem claim7_wq_exits_despite_save_failure :
    ∀ e : EditorState, e.isDirty = true →
      runCommand e [':', 'w', 'q'] false = some (e, true) := by
  intro e _h
  rfl

/-- Witness for C7 at the dirty `sampleState`. -/
theorem claim7_wq_exits_despite_save_failure_witness :
    sampleState.isDirty = true ∧
    runCommand sampleState [':', 'w', 'q'] false = some (sampleState, true) :=
  ⟨rfl, claim7_wq_exits_despite_save_failure sampleState rfl⟩

/-- Claim C8 (the code violates its "including the empty command text" part):
executing the empty accumulated command panics — `runCommand` evaluates
`cmdFull[1:]` on the empty string (`none` here) — while a nonempty
unrecognized command such as `:foo` is silently ignored: buffer and cursor
unchanged, command cleared, back to Normal mode, no exit. -/
theorem claim8_unrecognized_ignored_but_empty_command_panics :
    (∀ (e : EditorState) (s : Bool), runCommand e [] s = none) ∧
    runCommand sampleState [':', 'f', 'o', 'o'] true =
      some (finishCommand sampleState, false) := by
  constructor
  · intro e s
    rfl
  · rfl

/-- Claim C10: Backspace in Insert mode with the cursor at `(row 0, col 0)`
returns early, leaving buffer and cursor unchanged, but the handler has
already set the dirty flag — so a subsequent unforced quit is rejected with
the unsaved-changes message even though no text changed. -/
theorem claim10_backspace_at_origin_sets_dirty :
    ∀ e : EditorState, e.cursorX = 0 → e.cursorY = 0 →
      handleKeyInsertMode e InsertKey.backspace = some { e with isDirty := true } ∧
      quit { e with isDirty := true } false =
        ({ e with isDirty := true,
                  statusMessage := "E37: No write since last change (add ! to override)" },
          false) := by
  intro e hx hy
  constructor
  · simp [handleKeyInsertMode, hx, hy]
  · simp [quit]

/-- Witness for C10 at a clean state with the cursor at the origin. -/
theorem claim10_backspace_at_origin_sets_dirty_witness :
    ({ sampleState with isDirty := false } : EditorState).cursorX = 0 ∧
    ({ sampleState with isDirty := false } : EditorState).cursorY = 0 ∧
    (handleKeyInsertMode { sampleState with isDirty := false } InsertKey.backspace =
        some { { sampleState with isDirty := false } with isDirty := true } ∧
      quit { { sampleState with isDirty := false } with isDirty := true } false =
        ({ { sampleState with isDirty := false } with
              isDirty := true,
              statusMessage := "E37: No write since last change (add ! to override)" },
          false)) :=
  ⟨rfl, rfl, claim10_backspace_at_origin_sets_dirty { sampleState with isDirty := false } rfl rfl⟩

end Gim

namespace Gim

/-- The failing input of claim C4: buffer `["ab", "cd"]`, Insert mode, cursor
at `(row 0, col 2)` — at the end of a line that is not the last line. -/
def enterAtEndState : EditorState :=
  { dataBuffer := [['a', 'b'], ['c', 'd']], cursorX := 2, cursorY := 0,
    currentMode := Mode.insert, statusMessage := "", currentCommand := [],
    isDirty := false, firstLineInFrame := 0, lastLineInFrame := 1,
    screenW := 80, screenH := 24, lastUpDownCursorMovement := CursorMovement.up }

/-- Claim C4 (the code violates it): Enter with the cursor at the end of a
non-last line does not insert an empty line — the truncation step
(`if e.cursorPos.X < e.getCurrentLineLength()`) is skipped after the shift
loop already copied row Y into slot Y+1, so the current line is duplicated:
`["ab", "cd"]` with cursor `(0, 2)` becomes `["ab", "ab", "cd"]` (cursor
`(1, 0)`), not the claimed `["ab", "", "cd"]`. -/
theorem claim4_enter_at_line_end_duplicates_line :
    handleKeyInsertMode enterAtEndState InsertKey.enter =
      some { enterAtEndState with
              isDirty := true,
              dataBuffer := [['a', 'b'], ['a', 'b'], ['c', 'd']],
              cursorX := 0, cursorY := 1,
              lastUpDownCursorMovement := CursorMovement.down } ∧
    ([['a', 'b'], ['a', 'b'], ['c', 'd']] : List (List Char)) ≠
      [['a', 'b'], [], ['c', 'd']] := by
  constructor
  · decide
  · decide

end Gim

namespace Gim

/-- Rows with an index above `y` are copied unchanged by the merge loop. -/
theorem mergeLoop_high (y : Nat) (cur : List Char) :
    ∀ (l : List (List Char)) (i : Nat), y < i → mergeLoop y cur i l = l := by
  intro l
  induction l with
  | nil => intro i _; rfl
  | cons a t ih =>
    intro i hi
    rw [mergeLoop, if_neg (by omega), if_neg (by omega)]
    rw [ih (i + 1) (by omega)]

/-- Characterization of the merge loop: started at index `i` on a buffer
whose row `y-1` is `p` and row `y` is `d`, it keeps the first `y-1` rows,
replaces `p` by `p ++ cur`, drops row `y`, and keeps the tail. -/
theorem mergeLoop_split (y : Nat) (cur : List Char) (hy : 1 ≤ y) :
    ∀ (A : List (List Char)) (p d : List Char) (B : List (List Char)) (i : Nat),
      i + A.length = y - 1 →
      mergeLoop y cur i (A ++ p :: d :: B) = A ++ (p ++ cur) :: B := by
  intro A
  induction A with
  | nil =>
    intro p d B i hi
    simp only [List.length_nil, Nat.add_zero] at hi
    simp only [List.nil_append]
    rw [mergeLoop, if_neg (by omega), if_pos (by omega)]
    rw [mergeLoop, if_pos (by omega)]
    rw [mergeLoop_high y cur B (i + 1 + 1) (by omega)]
  | cons a A ih =>
    intro p d B i hi
    simp only [List.length_cons] at hi
    rw [List.cons_append, mergeLoop, if_neg (by omega), if_neg (by omega)]
    rw [ih p d B (i + 1) (by omega)]
    rfl

/-- Claim C5: Backspace in Insert mode at column 0 of a non-first row
(row `|A| + 1`, with previous line `p` and current line `c`) merges: the
buffer becomes `A ++ [p ++ c] ++ B` (subsequent rows shift up by one) and
the cursor lands on the previous row at column `|p|`, the former merge
boundary. -/
theorem claim5_backspace_merges_previous_line :
    ∀ (e : EditorState) (A B : List (List Char)) (p c : List Char),
      e.dataBuffer = A ++ p :: c :: B →
      e.cursorY = (A.length : Int) + 1 →
      e.cursorX = 0 →
      handleKeyInsertMode e InsertKey.backspace =
        some { e with isDirty := true,
                      dataBuffer := A ++ (p ++ c) :: B,
                      cursorX := (p.length : Int),
                      cursorY := (A.length : Int) } := by
  intro e A B p c hbuf hy hx
  have htoNat : e.cursorY.toNat = A.length + 1 := by omega
  have hlen : e.dataBuffer.length = A.length + (B.length + 2) := by
    rw [hbuf]; simp
  have hcur : lineAt e.dataBuffer e.cursorY = some c := by
    rw [lineAt, if_pos (by constructor <;> omega)]
    rw [hbuf, htoNat]
    rw [List.getD_append_right _ _ _ _ (by omega)]
    simp
  have hprev : lineAt e.dataBuffer (e.cursorY - 1) = some p := by
    rw [lineAt, if_pos (by constructor <;> omega)]
    have : (e.cursorY - 1).toNat = A.length := by omega
    rw [hbuf, this]
    rw [List.getD_append_right _ _ _ _ (by omega)]
    simp
  have hmerge : mergeLoop e.cursorY.toNat c 0 e.dataBuffer = A ++ (p ++ c) :: B := by
    rw [htoNat, hbuf]
    exact mergeLoop_split (A.length + 1) c (by omega) A p c B 0 (by omega)
  simp only [handleKeyInsertMode]
  rw [if_neg (by simp; omega)]
  rw [if_neg (by simp [hx])]
  simp only [hcur, hprev, hmerge]
  simp only [Option.some.injEq]
  congr 1
  · omega

end Gim

namespace Gim

/-- The spec's C5 scenario: buffer `["abc", "def"]`, Insert mode, cursor at
`(row 1, col 0)`. -/
def mergeState : EditorState :=
  { dataBuffer := [['a', 'b', 'c'], ['d', 'e', 'f']], cursorX := 0, cursorY := 1,
    currentMode := Mode.insert, statusMessage := "", currentCommand := [],
    isDirty := false, firstLineInFrame := 0, lastLineInFrame := 1,
    screenW := 80, screenH := 24, lastUpDownCursorMovement := CursorMovement.up }

/-- Witness for C5 at the spec scenario: `["abc", "def"]` with cursor
`(1, 0)` becomes `["abcdef"]` with cursor `(0, 3)`. -/
theorem claim5_backspace_merges_previous_line_witness :
    mergeState.dataBuffer = [] ++ ['a', 'b', 'c'] :: ['d', 'e', 'f'] :: [] ∧
    mergeState.cursorY = ((([] : List (List Char)).length : Int)) + 1 ∧
    mergeState.cursorX = 0 ∧
    handleKeyInsertMode mergeState InsertKey.backspace =
      some { mergeState with isDirty := true,
                             dataBuffer := [['a', 'b', 'c', 'd', 'e', 'f']],
                             cursorX := 3, cursorY := 0 } :=
  ⟨rfl, rfl, rfl,
    claim5_backspace_merges_previous_line mergeState [] [] ['a', 'b', 'c'] ['d', 'e', 'f']
      rfl rfl rfl⟩

end Gim

namespace Gim

/-- The failing input of claim C1: buffer `["aaaa", "b"]` on a 2×4 grid
(usable text height 3, so the 4-character first line wraps into exactly the
2 rows that fill the frame to `y = height-2`), window `[0, 0]`, cursor
`(0, 0)` in Normal mode — the state after the initial sync of `NewEditor`. -/
def tallState : EditorState :=
  { dataBuffer := [['a', 'a', 'a', 'a'], ['b']], cursorX := 0, cursorY := 0,
    currentMode := Mode.normal, statusMessage := "", currentCommand := [],
    isDirty := false, firstLineInFrame := 0, lastLineInFrame := 0,
    screenW := 2, screenH := 4, lastUpDownCursorMovement := CursorMovement.up }

/-- The window state the code reaches after Down on `tallState`. -/
def tallStateAfter : EditorState :=
  { tallState with cursorY := 1, lastUpDownCursorMovement := CursorMovement.down,
                   firstLineInFrame := 2, lastLineInFrame := 1 }

/-- Claim C1 (the code violates it): pressing Down from `(0, 0)` on
`tallState` runs the viewport sync, whose scroll correction
(`fixVerticalCursorOverflow`) unconditionally adds each visible line's
wrap-row count `len/width` to `firstLineInFrame`, leaving the window at
`firstLineInFrame = 2` while the cursor sits on row 1 — the claimed
invariant `firstVisibleRow ≤ cursor.row` fails — and the subsequent frame
rebuild of the sync indexes `dataBuffer[2]` out of range (a Go panic,
`none` here). -/
theorem claim1_viewport_sync_breaks_window_invariant :
    keyDown tallState = some tallStateAfter ∧
    tallStateAfter.cursorY < tallStateAfter.firstLineInFrame ∧
    fillTextFrameFromTop tallStateAfter = none := by
  have hv : fixVertLoop [['a', 'a', 'a', 'a'], ['b']] 2 4 1 0 0 = some (2, 1) := by
    norm_num [fixVertLoop, fixVertInner, lineAt]
  refine ⟨?_, by decide, ?_⟩
  · simp only [keyDown, tallState, tallStateAfter]
    norm_num [fixHorizontalCursorOverflow, fixVerticalCursorOverflow, lineAt, hv,
      show ¬ (Mode.normal = Mode.insert) from by decide]
  · rw [fillTextFrameFromTop]
    rw [fillLines.eq_def]
    norm_num [tallStateAfter, tallState]

end Gim

namespace Gim

/-- The failing input of claim C3: a single 3-character line on a 2×2 grid
(one usable text row holding 2 cells), window starting at row 0. -/
def narrowState : EditorState :=
  { dataBuffer := [['a', 'b', 'c']], cursorX := 0, cursorY := 0,
    currentMode := Mode.normal, statusMessage := "", currentCommand := [],
    isDirty := false, firstLineInFrame := 0, lastLineInFrame := 0,
    screenW := 2, screenH := 2, lastUpDownCursorMovement := CursorMovement.up }

/-- Claim C3 (the code violates it): with `width = height = 2` and the single
visible line `"abc"`, whose wrapped row count `ceil(3/2) = 2` exceeds the
1 usable row, the frame build does not stop mid-line: after filling row 0 it
writes the third character to `textFrameTemp[1]` on a frame of
`height - 1 = 1` rows — an index-out-of-range panic (`none` here), not a
frame of at most `height - 1` rows of `width` cells. -/
theorem claim3_frame_fill_out_of_bounds :
    narrowState.screenW = 2 ∧ narrowState.screenH = 2 ∧
    fillTextFrameFromTop narrowState = none ∧
    syncTextFrameState narrowState = none := by
  have hfill : fillTextFrameFromTop narrowState = none := by
    have h1 : fillChars 2 ([none] : Frame) 0 0 ['a', 'b', 'c'] = none := by decide
    rw [fillTextFrameFromTop]
    simp only [narrowState]
    rw [fillLines.eq_def]
    simp [h1]
  exact ⟨rfl, rfl, hfill, by rw [syncTextFrameState, hfill]⟩

end Gim

namespace Gim

/-- The per-line row advance of the frame fill: writing `cs` from cell
`(x, y)` (with `x < width`) moves the write position to column
`(x + |cs|) % width` on row `y + (x + |cs|) / width`, provided every row it
touches is inside the frame.  Since the outer line loop then does an
unconditional extra `y++`, a line of length `n` started at column 0 consumes
`1 + n / width` physical row slots. -/
theorem fillChars_advance (width : Nat) (hw : 0 < width) :
    ∀ (cs : List Char) (frame : Frame) (x y : Nat), x < width →
      (cs ≠ [] → y + (x + cs.length - 1) / width < frame.length) →
      ∃ frame' : Frame, fillChars width frame x y cs =
        some (frame', (x + cs.length) % width, y + (x + cs.length) / width) ∧
        frame'.length = frame.length := by
  intro cs
  induction cs with
  | nil =>
    intro frame x y hx _
    refine ⟨frame, ?_, rfl⟩
    simp [fillChars, Nat.mod_eq_of_lt hx, Nat.div_eq_of_lt hx]
  | cons c cs ih =>
    intro frame x y hx hroom
    have hy : y < frame.length := by
      have h := hroom (by simp)
      exact lt_of_le_of_lt (Nat.le_add_right y _) h
    rw [fillChars, if_pos hy, if_pos hx]
    by_cases hxw : x + 1 = width
    · rw [if_pos hxw]
      have room2 : cs ≠ [] → (y + 1) + (0 + cs.length - 1) / width <
          (frame.set y
            (some (((frame.getD y none).getD (List.replicate width charZero)).set x c))).length := by
        intro hne
        have hpos : 1 ≤ cs.length := List.length_pos.mpr hne
        have h := hroom (by simp)
        have he : x + (c :: cs).length - 1 = (cs.length - 1) + width := by
          simp only [List.length_cons]; omega
        rw [he, Nat.add_div_right _ hw] at h
        rw [List.length_set]
        simp only [Nat.zero_add]
        omega
      obtain ⟨frame', heq, hl⟩ := ih _ 0 (y + 1) hw room2
      refine ⟨frame', ?_, by rw [hl, List.length_set]⟩
      rw [heq]
      simp only [Nat.zero_add, List.length_cons]
      rw [show x + (cs.length + 1) = cs.length + width from by omega,
          Nat.add_mod_right, Nat.add_div_right _ hw]
      rw [show y + 1 + cs.length / width = y + (cs.length / width + 1) from by omega]
    · rw [if_neg hxw]
      have hx1 : x + 1 < width := by omega
      have room2 : cs ≠ [] → y + (x + 1 + cs.length - 1) / width <
          (frame.set y
            (some (((frame.getD y none).getD (List.replicate width charZero)).set x c))).length := by
        intro hne
        have h := hroom (by simp)
        rw [List.length_set]
        have he : x + (c :: cs).length - 1 = x + 1 + cs.length - 1 := by
          simp only [List.length_cons]; omega
        rw [he] at h
        exact h
      obtain ⟨frame', heq, hl⟩ := ih _ (x + 1) y hx1 room2
      refine ⟨frame', ?_, by rw [hl, List.length_set]⟩
      rw [heq]
      simp only [List.length_cons]
      rw [show x + 1 + cs.length = x + (cs.length + 1) from by omega]

/-- The cursor mapping charges exactly `1 + len/width` screen rows for each
logical line it passes: raising the target row from `r` to `r + 1` (with the
matching `+1` in the loop's initial accumulator `cursorY - firstLineInFrame`)
adds `1 + len(line_r)/width` to the computed screen row. -/
theorem cursorScreenYLoop_step (buf : List (List Char)) (w r : Int)
    (line : List Char) (hr : lineAt buf r = some line) :
    ∀ (f acc : Int), f ≤ r →
      cursorScreenYLoop buf w (r + 1) f (acc + 1) =
        (cursorScreenYLoop buf w r f acc).map
          (fun v => v + 1 + (line.length : Int) / w) := by
  intro f acc hf
  generalize hn : (r - f).toNat = n
  induction n generalizing f acc with
  | zero =>
    have hfr : f = r := by omega
    subst hfr
    rw [cursorScreenYLoop.eq_def, if_pos (by omega)]
    simp only [hr]
    rw [cursorScreenYLoop.eq_def, if_neg (by omega)]
    conv_rhs => rw [cursorScreenYLoop.eq_def]
    rw [if_neg (by omega)]
    simp only [Option.map_some']
  | succ n ihn =>
    have hfr : f < r := by omega
    rw [cursorScreenYLoop.eq_def, if_pos (by omega)]
    conv_rhs => rw [cursorScreenYLoop.eq_def]
    rw [if_pos hfr]
    cases hline : lineAt buf f with
    | none => simp
    | some lf =>
      simp only [hline]
      rw [show acc + 1 + (lf.length : Int) / w = (acc + (lf.length : Int) / w) + 1 from by omega]
      exact ihn (f + 1) (acc + (lf.length : Int) / w) (by omega) (by omega)

end Gim

namespace Gim

/-- Claim C2 as amended: the viewport mapper accounts each logical line as
occupying `1 + ⌊len/width⌋` physical rows — not `ceil(len/width)` — in both
places.  First conjunct (frame layout): laying out a line of length `n` from
column 0 advances the write row by exactly `n / width` (the outer line loop
then adds its unconditional `y++`, for `1 + n / width` row slots in total).
Second conjunct (cursor mapping): moving the cursor's logical row from `r`
to `r + 1` increases the computed screen row by exactly
`1 + len(line_r) / width`.  The two agree with `ceil(len/width)` (minimum 1
for an empty line) except when `len` is a positive exact multiple of
`width`, where the code charges one extra row. -/
theorem claim2_line_row_accounting :
    (∀ (width : Nat), 0 < width →
      ∀ (line : List Char) (frame : Frame) (y : Nat),
        (line ≠ [] → y + (line.length - 1) / width < frame.length) →
        ∃ frame' : Frame, fillChars width frame 0 y line =
          some (frame', line.length % width, y + line.length / width) ∧
          frame'.length = frame.length) ∧
    (∀ (buf : List (List Char)) (w r : Int) (line : List Char),
      lineAt buf r = some line →
      ∀ (f acc : Int), f ≤ r →
        cursorScreenYLoop buf w (r + 1) f (acc + 1) =
          (cursorScreenYLoop buf w r f acc).map
            (fun v => v + 1 + (line.length : Int) / w)) := by
  constructor
  · intro width hw line frame y hroom
    have h := fillChars_advance width hw line frame 0 y hw
      (by simpa using hroom)
    simpa using h
  · intro buf w r line hr f acc hf
    exact cursorScreenYLoop_step buf w r line hr f acc hf

/-- Witness for the amended C2 at width 2 and the line `"abcd"`: the frame
fill advances the row by `4/2 = 2` (so the line consumes `3` row slots with
the outer `y++`), and the cursor mapping adds `1 + 4/2 = 3` when crossing
that line. -/
theorem claim2_line_row_accounting_witness :
    (∃ frame' : Frame,
      fillChars 2 ([none, none, none, none] : Frame) 0 0 ['a', 'b', 'c', 'd'] =
        some (frame', 0, 2) ∧ frame'.length = 4) ∧
    cursorScreenYLoop [['a', 'b', 'c', 'd'], ['x']] 2 1 0 1 =
      (cursorScreenYLoop [['a', 'b', 'c', 'd'], ['x']] 2 0 0 0).map
        (fun v => v + 1 + (4 : Int) / 2) :=
  ⟨claim2_line_row_accounting.1 2 (by decide) ['a', 'b', 'c', 'd']
      [none, none, none, none] 0 (fun _ => by decide),
    claim2_line_row_accounting.2 [['a', 'b', 'c', 'd'], ['x']] 2 0
      ['a', 'b', 'c', 'd'] (by decide) 0 0 (by decide)⟩

/-- The counterexample input for claim C2 as stated: buffer
`["abcd", "x"]` (first line length 4, an exact multiple of the width) on a
2×5 grid, cursor on row 1, window starting at row 0. -/
def wrapState : EditorState :=
  { dataBuffer := [['a', 'b', 'c', 'd'], ['x']], cursorX := 0, cursorY := 1,
    currentMode := Mode.normal, statusMessage := "", currentCommand := [],
    isDirty := false, firstLineInFrame := 0, lastLineInFrame := 0,
    screenW := 2, screenH := 5, lastUpDownCursorMovement := CursorMovement.up }

/-- Counterexample to claim C2 as stated: with width 2, the 4-character line
`"abcd"` (`ceil(4/2) = 2`) occupies three row slots, not two — the frame
leaves physical row 2 untouched (`none`, later a blank fill row) and starts
the next line `"x"` on physical row 3, and the cursor on logical row 1 maps
to screen row `1 + 4/2 = 3`, not row 2 as `ceil`-accounting would give. -/
theorem claim2_exact_multiple_counterexample :
    fillTextFrameFromTop wrapState =
      some ([some ['a', 'b'], some ['c', 'd'], none, some ['x', charZero]], 1) ∧
    cursorScreenY wrapState = some 3 ∧
    ¬ ((3 : Int) = 1 + (4 + 2 - 1) / 2 - 1) := by
  refine ⟨?_, ?_, by decide⟩
  · have h1 : fillChars 2 ([none, none, none, none] : Frame) 0 0 ['a', 'b', 'c', 'd'] =
        some ([some ['a', 'b'], some ['c', 'd'], none, none], 0, 2) := by decide
    have h2 : fillChars 2 ([some ['a', 'b'], some ['c', 'd'], none, none] : Frame) 0 3 ['x'] =
        some ([some ['a', 'b'], some ['c', 'd'], none, some ['x', charZero]], 1, 3) := by decide
    rw [fillTextFrameFromTop]
    simp only [wrapState]
    rw [fillLines.eq_def]
    simp [h1]
    rw [fillLines.eq_def]
    simp [h2]
  · norm_num [cursorScreenY, cursorScreenYLoop, lineAt, wrapState]

end Gim


namespace Gim

/-- Alias-chain soundness: the resolution loop can only return a highlight
that some name maps to directly in `groups` — chains that cycle or dead-end
can never produce a highlight. -/
theorem resolveGroupAux_sound (t : Theme) (visited : List String) (cur : String) :
    ∀ hl : TextHighlight, resolveGroupAux t visited cur = some hl →
      ∃ k, t.groups.lookup k = some hl := by
  refine resolveGroupAux.induct t
    (fun visited cur => ∀ hl : TextHighlight, resolveGroupAux t visited cur = some hl →
      ∃ k, t.groups.lookup k = some hl) ?_ ?_ ?_ ?_ visited cur
  · intro visited cur hv hl h
    rw [resolveGroupAux.eq_def, dif_pos hv] at h
    exact absurd h (by simp)
  · intro visited cur hv hl0 hg hl h
    rw [resolveGroupAux.eq_def, dif_neg hv] at h
    simp only [hg] at h
    exact ⟨cur, by rw [hg, h]⟩
  · intro visited cur hv hg hn ih hl h
    rw [resolveGroupAux.eq_def, dif_neg hv] at h
    simp only [hg] at h
    rw [dif_pos hn] at h
    exact ih hl h
  · intro visited cur hv hg hn hl h
    rw [resolveGroupAux.eq_def, dif_neg hv] at h
    simp only [hg] at h
    rw [dif_neg hn] at h
    exact absurd h (by simp)

end Gim

namespace Gim

/-- A sample directly-defined highlight (bold white foreground). -/
def hlSample : TextHighlight :=
  { foreground := { kind := ColorKind.rgb, red := 255, green := 255, blue := 255, index := 0 },
    background := { kind := ColorKind.none, red := 0, green := 0, blue := 0, index := 0 },
    txtStyle := { bold := true, italic := false, underline := false, reverse := false } }

/-- A theme with one directly defined group and a two-step alias cycle
`A → B → A` that reaches no direct group. -/
def cycleTheme : Theme :=
  { groups := [("Normal", hlSample)], links := [("A", "B"), ("B", "A")] }

/-- Claim C9: `ResolveGroup` is a total function (its recursion is bounded by
the number of link entries not yet visited, which is how the source's
`visited` map guarantees termination), it returns the highlight of a
directly defined group, it returns "unresolved" (`none`) on a name that is
neither a group nor a link, it can only ever return a highlight that some
name defines directly (so a chain that cycles or dead-ends never fabricates
one), and on the concrete cycle `A → B → A` it stops with `none` instead of
looping. -/
theorem claim9_resolveGroup_terminates_and_rejects_cycles :
    (∀ (t : Theme) (name : String) (hl : TextHighlight),
      t.groups.lookup name = some hl → ResolveGroup t name = some hl) ∧
    (∀ (t : Theme) (name : String) (hl : TextHighlight),
      ResolveGroup t name = some hl → ∃ k, t.groups.lookup k = some hl) ∧
    (∀ (t : Theme) (name : String),
      t.groups.lookup name = none → t.links.lookup name = none →
      ResolveGroup t name = none) ∧
    ResolveGroup cycleTheme "A" = none := by
  refine ⟨?_, ?_, ?_, ?_⟩
  · intro t name hl hg
    rw [ResolveGroup, resolveGroupAux.eq_def, dif_neg (by simp)]
    simp only [hg]
  · intro t name hl h
    exact resolveGroupAux_sound t [] name hl h
  · intro t name hg hn
    rw [ResolveGroup, resolveGroupAux.eq_def, dif_neg (by simp)]
    simp only [hg]
    rw [dif_neg (by simp [hn])]
  · rw [ResolveGroup, resolveGroupAux.eq_def]
    simp only [cycleTheme, List.contains_nil, Bool.false_eq_true, dite_false, dif_neg]
    simp [List.lookup]
    rw [resolveGroupAux.eq_def]
    simp [List.lookup]
    rw [resolveGroupAux.eq_def]
    simp [List.lookup]

end Gim

namespace Gim

/-- Witness for C9 at `cycleTheme`: `"Normal"` is directly defined and
resolves to its highlight; `"Missing"` is neither group nor link and
resolves to `none`. -/
theorem claim9_resolveGroup_witness :
    cycleTheme.groups.lookup "Normal" = some hlSample ∧
    ResolveGroup cycleTheme "Normal" = some hlSample ∧
    cycleTheme.groups.lookup "Missing" = none ∧
    cycleTheme.links.lookup "Missing" = none ∧
    ResolveGroup cycleTheme "Missing" = none :=
  ⟨by decide,
    claim9_resolveGroup_terminates_and_rejects_cycles.1 cycleTheme "Normal" hlSample (by decide),
    by decide, by decide,
    claim9_resolveGroup_terminates_and_rejects_cycles.2.2.1 cycleTheme "Missing"
      (by decide) (by decide)⟩

end Gim
